import Mathlib

/-!
# Verification of the gopoc rule-execution engine

Shallow embedding of the gopoc SDK (Go sources: `engine.go`, `client.go`, `cookie.go`,
the config/rule definitions and the expression evaluator).  Go strings are modelled as
Lean `String`, Go string-library functions are re-implemented over `List Char` with the
exact semantics of the `strings` package calls used by the source.  The two places the
source leaves the realm of pure computation — the HTTP transport and the Go `regexp`
engine applied to arbitrary `body.extract` patterns — are abstracted as explicit
parameters (an attempt-outcome oracle, a regex-compilation oracle); everything else is
translated directly from the Go code.

All recursive definitions are structural (string-consuming recursions are fuelled by the
input length, which is always sufficient), so every definition evaluates by kernel
reduction on concrete inputs.
-/

/-! ## Go string-library primitives -/

/-- The single-quote character, written via its code point. -/
def squote : Char := Char.ofNat 39

/-- The double-quote character, written via its code point. -/
def dquote : Char := Char.ofNat 34

/-- Go `unicode.IsSpace` restricted to ASCII, as used by `strings.TrimSpace`. -/
def isSpaceGo (c : Char) : Bool :=
  c == ' ' || c == '\t' || c == '\n' || c == '\r' || c == '\x0b' || c == '\x0c'

/-- Drop characters satisfying `p` from both ends of a character list. -/
def trimCharsWith (p : Char → Bool) (l : List Char) : List Char :=
  ((l.dropWhile p).reverse.dropWhile p).reverse

/-- Go `strings.TrimSpace`. -/
def goTrim (s : String) : String := String.mk (trimCharsWith isSpaceGo s.data)

/-- Go `strings.Trim s cutset`: remove any character of `cs` from both ends. -/
def trimCharSet (cs : List Char) (l : List Char) : List Char :=
  trimCharsWith (fun c => cs.contains c) l

/-- Search of `sub` as a contiguous substring of the second argument. -/
def hasSubstr (sub : List Char) : List Char → Bool
  | [] => sub.isEmpty
  | c :: t => sub.isPrefixOf (c :: t) || hasSubstr sub t

/-- Go `strings.Contains s sub`. -/
def goContains (s sub : String) : Bool := hasSubstr sub.data s.data

/-- Core of Go `strings.Split` (used with nonempty separators only), fuelled by the
input length so the recursion is structural and kernel-reducible. -/
def goSplitCore (sep : List Char) : Nat → List Char → List (List Char)
  | _, [] => [[]]
  | 0, s => [s]
  | fuel+1, c :: rest =>
    if !sep.isEmpty && sep.isPrefixOf (c :: rest) then
      [] :: goSplitCore sep fuel ((c :: rest).drop sep.length)
    else
      match goSplitCore sep fuel rest with
      | [] => [[c]]
      | p :: ps => (c :: p) :: ps

/-- Go `strings.Split s sep`. -/
def goSplit (s sep : String) : List String :=
  (goSplitCore sep.data s.data.length s.data).map String.mk

/-- Go `strings.TrimPrefix p` applied to `s` (remove one leading occurrence). -/
def goTrimPre (p s : String) : String :=
  if p.data.isPrefixOf s.data then String.mk (s.data.drop p.data.length) else s

/-- Go `strings.TrimSuffix p` applied to `s` (remove one trailing occurrence). -/
def goTrimSuf (p s : String) : String :=
  if p.data.reverse.isPrefixOf s.data.reverse then
    String.mk (s.data.take (s.data.length - p.data.length))
  else s

/-- Go `strings.Join` with the given separator. -/
def goJoin (sep : String) : List String → String
  | [] => ""
  | [x] => x
  | x :: y :: xs => x ++ sep ++ goJoin sep (y :: xs)

/-- Go `strings.ToLower` (ASCII, which is all the source feeds it). -/
def goLower (s : String) : String := String.mk (s.data.map Char.toLower)

/-- Go `strconv.Atoi` on an all-digit run (helper). -/
def digitsVal (ds : List Char) : Option Nat :=
  if !ds.isEmpty && ds.all Char.isDigit then
    some (ds.foldl (fun a c => a * 10 + (c.toNat - 48)) 0)
  else none

/-- Go `strconv.Atoi`: optional sign, then one or more digits spanning the whole string. -/
def atoi? (s : String) : Option Int :=
  match s.data with
  | '-' :: ds => (digitsVal ds).map (fun n => -(n : Int))
  | '+' :: ds => (digitsVal ds).map (fun n => (n : Int))
  | ds => (digitsVal ds).map (fun n => (n : Int))

/-! ## Regex-shaped call parsing

The evaluator and the cookie extractor use Go regexes of the single shape
`name\(['"]([^'"]+)['"]\)` (a literal call form with a quoted, nonempty argument) via
`FindStringSubmatch`, which returns the leftmost match.  Because the character class of
the capture excludes both quote characters, the regex matches at a position exactly when
the literal call head is followed by a quote, a maximal nonempty quote-free run, a quote
and a closing parenthesis; the scan below reproduces that leftmost-match semantics. -/

/-- Is `c` one of the two quote characters admitted by `['"]`? -/
def isQuote (c : Char) : Bool := c == squote || c == dquote

/-- Try to match `pre` + quote + nonempty quote-free capture + quote + `)` at the head. -/
def tryCallAt (preL : List Char) (s : List Char) : Option (List Char) :=
  if preL.isPrefixOf s then
    match s.drop preL.length with
    | q :: rest =>
      if isQuote q then
        let arg := rest.takeWhile (fun c => !isQuote c)
        match rest.dropWhile (fun c => !isQuote c) with
        | q2 :: c2 :: _ => if isQuote q2 && c2 == ')' && !arg.isEmpty then some arg else none
        | _ => none
      else none
    | [] => none
  else none

/-- Leftmost match of the call pattern anywhere in the string (Go `FindStringSubmatch`),
returning the first capture group. -/
def findCallArg (preL : List Char) : List Char → Option (List Char)
  | [] => none
  | c :: rest =>
    match tryCallAt preL (c :: rest) with
    | some a => some a
    | none => findCallArg preL rest

/-! ## Data model (`config.go` / `client.go`) -/

/-- Model of `Rule` from the configuration file (config source, `Rule` struct). -/
structure Rule where
  Method : String
  Path : String
  Timeout : Int
  RetryCount : Int
  Headers : List (String × String)
  Body : List String
  ExtractCookie : String
  UseCookie : String
  CookieExpression : String
  Expression : String

/-- Model of `Response` from `client.go`.  `Cookies` models `[]*http.Cookie` by the rendered
`cookie.String()` forms, which is the only way the source consumes them. -/
structure Response where
  Status : Int
  Headers : List (String × List String)
  Body : String
  Cookies : List String

/-- Model of `Rule.GetTimeout` (config source): seconds, floored at 60.  The Go function returns a
`time.Duration`; the model works in seconds, which the Go value is a fixed multiple of. -/
def Rule.GetTimeout (r : Rule) : Int :=
  if r.Timeout ≤ 0 then 60
  else if r.Timeout < 60 then 60
  else r.Timeout

/-- Model of `Rule.GetRetryCount` (config source): values ≤ 0 are normalized to 1. -/
def Rule.GetRetryCount (r : Rule) : Int :=
  if r.RetryCount ≤ 0 then 1 else r.RetryCount

/-- Model of `Rule.GetBody` (config source): first element of the body list, or empty. -/
def Rule.GetBody (r : Rule) : String :=
  match r.Body with
  | [] => ""
  | b :: _ => b

/-! ## Expression evaluator (`ExpressionEvaluator`) -/

/-- The dynamic values flowing through `evaluateValue` (Go `interface{}`): the source
produces exactly ints (`response.status`, numeric literals), strings (literals, header
lookups, fallback) and bools (the two `contains` predicates). -/
inductive Value where
  | VInt : Int → Value
  | VStr : String → Value
  | VBool : Bool → Value

/-- Go `fmt.Sprintf("%v", v)` on the three value shapes. -/
def valueText : Value → String
  | .VInt n => toString n
  | .VStr s => s
  | .VBool b => if b then "true" else "false"

/-- Model of `removeComments` (evaluator source and `engine.go`): cut at the first `#`. -/
def removeComments (s : String) : String :=
  String.mk (s.data.takeWhile (fun c => c != '#'))

/-- Model of `evaluateContains`: parse `response.body.contains('text')`, then substring test on
the body (`false` on a missing response, parse failure is an error). -/
def evaluateContains (resp : Option Response) (expr : String) : Except String Bool :=
  match findCallArg ("response.body.contains(").data expr.data with
  | none => .error ("无法解析 contains 表达式: " ++ expr)
  | some arg =>
    match resp with
    | none => .ok false
    | some r => .ok (hasSubstr arg r.Body.data)

/-- Model of `evaluateCookieContains`: parse `cookie.contains('text')`, then substring test on the
cookie string. -/
def evaluateCookieContains (cookie : String) (expr : String) : Except String Bool :=
  match findCallArg ("cookie.contains(").data expr.data with
  | none => .error ("无法解析 cookie.contains 表达式: " ++ expr)
  | some arg => .ok (hasSubstr arg cookie.data)

/-- Header scan of `evaluateHeaderGet`: first case-insensitive match with a nonempty
value list yields its first value; a matching key with no values is skipped. -/
def headerGetGo (nameLower : String) : List (String × List String) → String
  | [] => ""
  | (k, vs) :: rest =>
    if goLower k == nameLower then
      match vs with
      | v :: _ => v
      | [] => headerGetGo nameLower rest
    else headerGetGo nameLower rest

/-- Model of `evaluateHeaderGet`: parse `response.headers.get('name')`, then case-insensitive
lookup (empty string on a missing response or absent header). -/
def evaluateHeaderGet (resp : Option Response) (expr : String) : Except String String :=
  match findCallArg ("response.headers.get(").data expr.data with
  | none => .error ("无法解析 headers.get 表达式: " ++ expr)
  | some arg =>
    match resp with
    | none => .ok ""
    | some r => .ok (headerGetGo (goLower (String.mk arg)) r.Headers)

/-- Model of `evaluateValue`: quoted literal / `response.status` / the three call forms /
integer literal / fallback to the raw string, in the source's order. -/
def evaluateValue (resp : Option Response) (cookie : String) (expr0 : String) :
    Except String Value :=
  let expr := goTrim expr0
  if !expr.data.isEmpty && expr.data.head! == squote && expr.data.getLast! == squote then
    .ok (.VStr (String.mk (trimCharSet [squote] expr.data)))
  else if !expr.data.isEmpty && expr.data.head! == dquote && expr.data.getLast! == dquote then
    .ok (.VStr (String.mk (trimCharSet [dquote] expr.data)))
  else if expr == "response.status" then
    match resp with
    | none => .ok (.VInt 0)
    | some r => .ok (.VInt r.Status)
  else if goContains expr "response.body.contains" then
    (evaluateContains resp expr).map Value.VBool
  else if goContains expr "cookie.contains" then
    (evaluateCookieContains cookie expr).map Value.VBool
  else if goContains expr "response.headers.get" then
    (evaluateHeaderGet resp expr).map Value.VStr
  else
    match atoi? expr with
    | some n => .ok (.VInt n)
    | none => .ok (.VStr expr)

/-- Model of `evaluateNumericValue`: ints pass through, strings go through `strconv.Atoi`,
anything else (a bool) is a type-mismatch error. -/
def evaluateNumericValue (resp : Option Response) (cookie : String) (expr : String) :
    Except String Int :=
  match evaluateValue resp cookie expr with
  | .error e => .error e
  | .ok (.VInt n) => .ok n
  | .ok (.VStr s) =>
    match atoi? s with
    | some n => .ok n
    | none => .error ("strconv.Atoi: parsing " ++ s ++ ": invalid syntax")
  | .ok v => .error ("无法转换为数字: " ++ valueText v)

/-- Model of `evaluateComparison` for `==`/`!=`: split on the operator (exactly two parts
required), evaluate both sides, compare their `%v` texts. -/
def evalCmpText (resp : Option Response) (cookie expr op : String) (neg : Bool) :
    Except String Bool :=
  match goSplit expr op with
  | [l, r] =>
    match evaluateValue resp cookie (goTrim l) with
    | .error e => .error e
    | .ok lv =>
      match evaluateValue resp cookie (goTrim r) with
      | .error e => .error e
      | .ok rv =>
        if neg then .ok (!(valueText lv == valueText rv))
        else .ok (valueText lv == valueText rv)
  | _ => .error ("无效的比较表达式: " ++ expr)

/-- Model of `evaluateNumericComparison` for `>=`, `<=`, `>`, `<`: both sides must resolve to
integers. -/
def evalCmpNum (resp : Option Response) (cookie expr op : String) : Except String Bool :=
  match goSplit expr op with
  | [l, r] =>
    match evaluateNumericValue resp cookie (goTrim l) with
    | .error e => .error e
    | .ok lv =>
      match evaluateNumericValue resp cookie (goTrim r) with
      | .error e => .error e
      | .ok rv =>
        if op == ">=" then .ok (decide (lv ≥ rv))
        else if op == "<=" then .ok (decide (lv ≤ rv))
        else if op == ">" then .ok (decide (lv > rv))
        else if op == "<" then .ok (decide (lv < rv))
        else .error ("不支持的运算符: " ++ op)
  | _ => .error ("无效的数字比较表达式: " ++ expr)

/-- Model of `evaluateOr`: evaluate trimmed segments left to right, short-circuiting on the first
`true`; an error in an evaluated segment aborts. -/
def orPartsG (single : String → Except String Bool) : List String → Except String Bool
  | [] => .ok false
  | p :: ps =>
    match single (goTrim p) with
    | .error e => .error e
    | .ok true => .ok true
    | .ok false => orPartsG single ps

/-- Model of `evaluateAnd`: evaluate every trimmed segment (no short-circuit), conjoin; the first
error aborts. -/
def andPartsG (single : String → Except String Bool) : List String → Except String Bool
  | [] => .ok true
  | p :: ps =>
    match single (goTrim p) with
    | .error e => .error e
    | .ok v =>
      match andPartsG single ps with
      | .error e => .error e
      | .ok rest => .ok (v && rest)

/-- Model of `Evaluate` / `evaluateSingle` combined into one fuelled, structurally recursive
function: mode `true` is `Evaluate` (strip comments, dispatch on `||` before `&&`),
mode `false` is `evaluateSingle` (parenthesis wrapper recursing into `Evaluate`, the two
`contains` predicates, then the comparison operators longest-first).  The fuel only
bounds the parenthesis-recursion depth; `Evaluate` supplies more than enough. -/
def evalGo (resp : Option Response) (cookie : String) : Nat → Bool → String →
    Except String Bool
  | 0, _, _ => .error "评估深度超限"
  | fuel+1, true, expr0 =>
    let expr := goTrim (removeComments expr0)
    if goContains expr "||" then
      orPartsG (evalGo resp cookie fuel false) (goSplit expr "||")
    else if goContains expr "&&" then
      andPartsG (evalGo resp cookie fuel false) (goSplit expr "&&")
    else
      evalGo resp cookie fuel false expr
  | fuel+1, false, expr0 =>
    let expr := goTrim expr0
    if !expr.data.isEmpty && expr.data.head! == '(' && expr.data.getLast! == ')' then
      evalGo resp cookie fuel true (String.mk (trimCharSet ['(', ')'] expr.data))
    else if goContains expr "response.body.contains" then
      evaluateContains resp expr
    else if goContains expr "cookie.contains" then
      evaluateCookieContains cookie expr
    else if goContains expr "==" then
      evalCmpText resp cookie expr "==" false
    else if goContains expr "!=" then
      evalCmpText resp cookie expr "!=" true
    else if goContains expr ">=" then
      evalCmpNum resp cookie expr ">="
    else if goContains expr "<=" then
      evalCmpNum resp cookie expr "<="
    else if goContains expr ">" && !goContains expr ">=" then
      evalCmpNum resp cookie expr ">"
    else if goContains expr "<" && !goContains expr "<=" then
      evalCmpNum resp cookie expr "<"
    else
      .error ("不支持的表达式: " ++ expr)

/-- Model of `ExpressionEvaluator.Evaluate` (evaluator source). -/
def Evaluate (expr : String) (resp : Option Response) (cookie : String) :
    Except String Bool :=
  evalGo resp cookie (2 * expr.length + 4) true expr

/-! ## Cookie extractor (`cookie.go`) -/

/-- Abstraction of the Go `regexp` engine for `response.body.extract` patterns: compile a
pattern (`none` on a compile error) to a matcher returning the first capture group of the
first match (`none` when there is no match or no group).  The regex engine is an external
library, not part of the translated source; every claim below is independent of it. -/
def RegexOracle : Type := String → Option (String → Option String)

/-- Model of `convertRustRegex` (cookie.go): strip a possible Rust-style `r'...'` / `r"..."`
wrapper, in the source's exact trim order. -/
def convertRustRegex (p : String) : String :=
  goTrimSuf "\"" (goTrimSuf "'" (goTrimPre "r\"" (goTrimPre "r'" p)))

/-- Header scan of `ExtractCookie`: the first case-insensitive match with a nonempty
value list yields the values joined by `"; "`; a matching key with no values is
skipped; `none` signals falling through to the raw-cookie fallback. -/
def cookieHeaderGo (nameLower : String) : List (String × List String) → Option String
  | [] => none
  | (k, vs) :: rest =>
    if goLower k == nameLower then
      if !vs.isEmpty then some (goJoin "; " vs) else cookieHeaderGo nameLower rest
    else cookieHeaderGo nameLower rest

/-- Model of `CookieExtractor.ExtractCookie` (cookie.go): header lookup (with raw-cookie
fallback), body pattern extraction, the sentinel, or an unsupported-expression error. -/
def ExtractCookie (rx : RegexOracle) (expr : String) (resp : Option Response) :
    Except String String :=
  match resp with
  | none => .error "响应为空"
  | some response =>
    if goContains expr "response.headers.get" then
      match findCallArg ("response.headers.get(").data expr.data with
      | none => .error ("无法解析 headers.get 表达式: " ++ expr)
      | some arg =>
        match cookieHeaderGo (goLower (String.mk arg)) response.Headers with
        | some joined => .ok joined
        | none =>
          if !response.Cookies.isEmpty then .ok (goJoin "; " response.Cookies)
          else .ok ""
    else if goContains expr "response.body.extract" then
      match findCallArg ("response.body.extract(").data expr.data with
      | none => .error ("无法解析 body.extract 表达式: " ++ expr)
      | some argL =>
        let pat := convertRustRegex (String.mk argL)
        match rx pat with
        | none => .error ("无效的正则表达式: " ++ pat)
        | some matcher =>
          match matcher response.Body with
          | some g => .ok g
          | none => .ok ""
    else if expr == "response.extracted_cookie" then
      .error "extracted_cookie 需要从执行上下文获取"
    else
      .error ("不支持的 Cookie 提取表达式: " ++ expr)

/-- Model of `CookieExtractor.ValidateCookie` (cookie.go): empty expression is vacuously valid;
otherwise evaluate against a synthetic `Response{Status: 200}` and the cookie. -/
def ValidateCookie (expr cookie : String) : Except String Bool :=
  if expr == "" then .ok true
  else Evaluate expr (some { Status := 200, Headers := [], Body := "", Cookies := [] }) cookie

/-! ## HTTP client (`client.go`) -/

/-- URL join at the top of `ExecuteRequest`: strip one trailing slash from the base,
force one leading slash on the path. -/
def joinURL (base p : String) : String :=
  goTrimSuf "/" base ++ (if !p.data.isEmpty && p.data.head! == '/' then p else "/" ++ p)

/-- The 60-second floor `ExecuteRequest` applies to `opts.Timeout` before the retry loop
(seconds; the Go code compares durations). -/
def clientTimeoutFloor (t : Int) : Int := if t < 60 then 60 else t

/-- Result of the retry loop of `ExecuteRequest`: the response of the first successful
attempt (or `none` if every attempt failed), the number of attempts issued, and the list
of backoff waits (in seconds) performed, in order. -/
structure ExecResult where
  response : Option Response
  attemptsMade : Nat
  waits : List Nat

/-- One pass of the retry loop over the remaining attempt indices.  `outcome i` abstracts
attempt `i` of the loop body (request construction, transport, body read): `some r` when
the attempt yields a readable response `r` — regardless of its status code — and `none`
when any step of the attempt fails and the loop continues.  Index `i > 0` first sleeps
`i * 2` seconds (`time.Second * time.Duration(i*2)`). -/
def execAttempts (outcome : Nat → Option Response) : List Nat → ExecResult
  | [] => ⟨none, 0, []⟩
  | i :: rest =>
    let ws := if 0 < i then [i * 2] else []
    match outcome i with
    | some r => ⟨some r, 1, ws⟩
    | none =>
      let res := execAttempts outcome rest
      ⟨res.response, res.attemptsMade + 1, ws ++ res.waits⟩

/-- Number of iterations of `for i := 0; i <= opts.RetryCount; i++`. -/
def loopIters (retryCount : Int) : Nat := (retryCount + 1).toNat

/-- The retry loop of `HTTPClient.ExecuteRequest` (client.go, lines 97-195): iterate the
attempt indices `0, 1, ..., retryCount`, returning on the first readable response. -/
def executeRequest (outcome : Nat → Option Response) (retryCount : Int) : ExecResult :=
  execAttempts outcome (List.range (loopIters retryCount))

/-! ## Engine (`engine.go`) -/

/-- Lookup in the `ruleResults` map, modelled as an association list with unique keys. -/
def lookupRes (l : List (String × Bool)) (n : String) : Option Bool :=
  (l.find? (fun kv => kv.1 == n)).map (fun kv => kv.2)

/-- Map update `e.ruleResults[ruleName] = success`. -/
def updateRes (l : List (String × Bool)) (n : String) (b : Bool) : List (String × Bool) :=
  if l.any (fun kv => kv.1 == n) then
    l.map (fun kv => if kv.1 == n then (n, b) else kv)
  else l ++ [(n, b)]

/-- The substitution callback of both `ReplaceAllStringFunc` calls in
`evaluateMainExpression`: a known rule name becomes its recorded boolean, an unknown one
becomes `"false"`. -/
def lookupBoolStr (res : List (String × Bool)) (n : String) : String :=
  match lookupRes res n with
  | some true => "true"
  | some false => "false"
  | none => "false"

/-- Go `\w` (RE2 default, ASCII): `[0-9A-Za-z_]`. -/
def isWordChar (c : Char) : Bool := c.isAlphanum || c == '_'

/-- Model of `regexp.MustCompile`'s `(\w+)\(\)` with `ReplaceAllStringFunc`: every maximal word
run immediately followed by `()` is replaced through `lookupBoolStr` (the Go callback
trims the `()` suffix and looks the name up).  Fuelled by the input length (each step
consumes at least one character). -/
def replaceCallsF (res : List (String × Bool)) : Nat → List Char → List Char
  | 0, s => s
  | _, [] => []
  | fuel+1, c :: rest =>
    if isWordChar c then
      let run := (c :: rest).takeWhile isWordChar
      let after := (c :: rest).dropWhile isWordChar
      match after with
      | '(' :: ')' :: tail =>
        (lookupBoolStr res (String.mk run)).data ++ replaceCallsF res fuel tail
      | _ => run ++ replaceCallsF res fuel after
    else c :: replaceCallsF res fuel rest

/-- Does a maximal word run match `\b(r\d+)\b`, i.e. is it `r` followed by one or more
digits?  (A word boundary cannot occur inside a word run, so the regex matches exactly
the full runs of this shape.) -/
def isRuleName (run : List Char) : Bool :=
  match run with
  | c :: ds => c == 'r' && !ds.isEmpty && ds.all Char.isDigit
  | [] => false

/-- Model of `\b(r\d+)\b` with `ReplaceAllStringFunc`: every maximal word run of the shape
`r<digits>` is replaced through `lookupBoolStr`; all other runs are left as they are. -/
def replaceBareF (res : List (String × Bool)) : Nat → List Char → List Char
  | 0, s => s
  | _, [] => []
  | fuel+1, c :: rest =>
    if isWordChar c then
      let run := (c :: rest).takeWhile isWordChar
      let after := (c :: rest).dropWhile isWordChar
      if isRuleName run then
        (lookupBoolStr res (String.mk run)).data ++ replaceBareF res fuel after
      else run ++ replaceBareF res fuel after
    else c :: replaceBareF res fuel rest

/-- The two substitution passes of `evaluateMainExpression`: call forms first, then bare
`r<digits>` identifiers. -/
def substituteRules (res : List (String × Bool)) (s : String) : String :=
  let s1 := replaceCallsF res s.data.length s.data
  String.mk (replaceBareF res s1.length s1)

/-- Model of `Engine.evaluateMainExpression` (engine.go, lines 125-181): strip comments, trim,
substitute rule results, then: if the text contains `&&` the result is false exactly when
some trimmed segment is the string `"false"`; otherwise if it contains `||` the result is
true exactly when some trimmed segment is `"true"`; otherwise compare with `"true"`.
(The Go function's error component is always `nil`.) -/
def evaluateMainExpression (res : List (String × Bool)) (expr0 : String) : Bool :=
  let expr := goTrim (removeComments expr0)
  let expr2 := substituteRules res expr
  if goContains expr2 "&&" then
    !(goSplit expr2 "&&").any (fun p => goTrim p == "false")
  else if goContains expr2 "||" then
    (goSplit expr2 "||").any (fun p => goTrim p == "true")
  else expr2 == "true"

/-- Cookie-extraction step of `executeRule` (engine.go, lines 84-89): on success with a
nonempty cookie, store it; on failure or an empty cookie, keep the stored value. -/
def extractPhase (rx : RegexOracle) (response : Response) (stored : String) (rule : Rule) :
    String :=
  if rule.ExtractCookie ≠ "" then
    match ExtractCookie rx rule.ExtractCookie (some response) with
    | .ok cookie => if cookie ≠ "" then cookie else stored
    | .error _ => stored
  else stored

/-- Response-expression step of `executeRule` (engine.go, lines 110-119): an evaluation
error and a false result are both returned as errors (so both abort the run). -/
def rulePhase3 (response : Response) (stored1 : String) (rule : Rule) :
    Except String Bool :=
  if rule.Expression ≠ "" then
    match Evaluate rule.Expression (some response) stored1 with
    | .error e => .error ("表达式评估失败: " ++ e)
    | .ok false => .error ("规则表达式不满足: " ++ rule.Expression)
    | .ok true => .ok true
  else .ok true

/-- Cookie-validation step of `executeRule` (engine.go, lines 92-107): the cookie to
validate is `use_cookie` when set and not the sentinel, else the stored cookie; an
evaluation error and a false validation result are both returned as errors. -/
def rulePhase2 (response : Response) (stored1 : String) (rule : Rule) :
    Except String Bool :=
  if rule.CookieExpression ≠ "" then
    let cookieToValidate :=
      if rule.UseCookie ≠ "" ∧ rule.UseCookie ≠ "response.extracted_cookie" then
        rule.UseCookie
      else stored1
    match ValidateCookie rule.CookieExpression cookieToValidate with
    | .error e => .error ("Cookie 验证失败: " ++ e)
    | .ok false => .error "Cookie 验证不通过"
    | .ok true => rulePhase3 response stored1 rule
  else rulePhase3 response stored1 rule

/-- Model of `Engine.executeRule` (engine.go, lines 65-122).  The HTTP response for the rule is an
explicit argument (`.error` for a transport failure after retries).  Returns the Go
`(bool, error)` pair as an `Except`, plus the stored-cookie value after the rule (the
only mutation `executeRule` performs on the client state). -/
def executeRule (rx : RegexOracle) (respRes : Except String Response) (stored : String)
    (rule : Rule) : Except String Bool × String :=
  match respRes with
  | .error e => (.error ("HTTP 请求失败: " ++ e), stored)
  | .ok response =>
    let stored1 := extractPhase rx response stored rule
    (rulePhase2 response stored1 rule, stored1)

/-- The per-rule loop of `Engine.Execute` (engine.go, lines 41-47), over an explicit
iteration sequence: Go ranges over the `map[string]*Rule`, whose iteration order is
unspecified, so the order is a parameter here.  On a rule error the loop aborts with the
wrapped error and nothing is recorded for that rule. -/
def ExecuteLoop (rx : RegexOracle) (responses : String → Except String Response) :
    List (String × Rule) → List (String × Bool) → String →
    Except String Unit × List (String × Bool) × String
  | [], results, stored => (.ok (), results, stored)
  | (name, rule) :: rest, results, stored =>
    match executeRule rx (responses name) stored rule with
    | (.error e, stored1) => (.error ("执行规则 " ++ name ++ " 失败: " ++ e), results, stored1)
    | (.ok success, stored1) =>
      ExecuteLoop rx responses rest (updateRes results name success) stored1

/-- Outcome of a run: the Go `(bool, error)` pair as an `Except`, the recorded rule
results, and the final stored cookie. -/
structure RunResult where
  verdict : Except String Bool
  ruleResults : List (String × Bool)
  storedCookie : String

/-- Model of `Engine.Execute` (engine.go, lines 39-62): run the rules (in the map-iteration order
given by `rules`), then evaluate the main expression if one is declared, else require all
recorded results true. -/
def Execute (rx : RegexOracle) (responses : String → Except String Response)
    (rules : List (String × Rule)) (expression : String) : RunResult :=
  match ExecuteLoop rx responses rules [] "" with
  | (.error e, results, stored) => ⟨.error e, results, stored⟩
  | (.ok _, results, stored) =>
    if expression != "" then
      ⟨.ok (evaluateMainExpression results expression), results, stored⟩
    else
      ⟨.ok (results.all (fun kv => kv.2)), results, stored⟩

/-! ## Concrete fixtures used by the theorems -/

/-- A rule with every field empty/zero (used as a base for fixtures). -/
def emptyRule : Rule :=
  { Method := "", Path := "", Timeout := 0, RetryCount := 0, Headers := [], Body := [],
    ExtractCookie := "", UseCookie := "", CookieExpression := "", Expression := "" }

/-- A regex oracle that compiles nothing; no fixture below reaches `body.extract`. -/
def rxNone : RegexOracle := fun _ => none

/-- A rule with the given declared timeout (seconds). -/
def ruleWithTimeout (t : Int) : Rule := { emptyRule with Timeout := t }

/-- A plain 200 response with no headers, body or cookies. -/
def resp200 : Response := ⟨200, [], "", []⟩

/-- A plain 404 response. -/
def resp404 : Response := ⟨404, [], "", []⟩

/-- Recorded rule results `{r0: true, r1: false}`. -/
def resC1 : List (String × Bool) := [("r0", true), ("r1", false)]

/-- Recorded rule results `{abc: false, r0: true}` (a rule whose name does not match
`r<digits>`). -/
def resC10 : List (String × Bool) := [("abc", false), ("r0", true)]

/-- A rule whose cookie-validation expression fails against an empty stored cookie. -/
def ruleCookieCheck : Rule := { emptyRule with CookieExpression := "cookie.contains(\"session\")" }

/-- A rule whose response-validation expression is false against a 200 response. -/
def ruleExprFalse : Rule := { emptyRule with Expression := "response.status==500" }

/-- A rule that extracts the `Set-Cookie` header into the stored cookie. -/
def ruleExtractSC : Rule := { emptyRule with ExtractCookie := "response.headers.get(\"Set-Cookie\")" }

/-- A rule whose response-validation expression reads the stored cookie. -/
def ruleNeedsCookie : Rule := { emptyRule with Expression := "cookie.contains(\"sid\")" }

/-- A rule whose extraction expression is unsupported (extraction fails). -/
def ruleBadExtract : Rule := { emptyRule with ExtractCookie := "bogus" }

/-- Responses for every rule: a plain 200. -/
def respsAll200 : String → Except String Response := fun _ => .ok resp200

/-- Responses for the two-rule cookie-threading run: `r0` receives a `Set-Cookie: sid=1`
header, every other rule a plain 200. -/
def respsC7 : String → Except String Response := fun n =>
  if n == "r0" then .ok { Status := 200, Headers := [("Set-Cookie", ["sid=1"])], Body := "", Cookies := [] }
  else .ok resp200

/-- Attempt outcomes where attempt 0 fails and every later attempt succeeds. -/
def wOutcome : Nat → Option Response := fun i => if i == 0 then none else some resp200

/-! ## Helper lemmas -/

theorem range'_cons (s n : Nat) : List.range' s (n + 1) = s :: List.range' (s + 1) n := rfl

theorem execAttempts_cons_some (outcome : Nat → Option Response) (i : Nat)
    (rest : List Nat) (r : Response) (h : outcome i = some r) :
    execAttempts outcome (i :: rest) = ⟨some r, 1, if 0 < i then [i * 2] else []⟩ := by
  simp [execAttempts, h]

theorem execAttempts_cons_none (outcome : Nat → Option Response) (i : Nat)
    (rest : List Nat) (h : outcome i = none) :
    execAttempts outcome (i :: rest) =
      ⟨(execAttempts outcome rest).response, (execAttempts outcome rest).attemptsMade + 1,
        (if 0 < i then [i * 2] else []) ++ (execAttempts outcome rest).waits⟩ := by
  simp [execAttempts, h]

theorem execAttempts_spec (outcome : Nat → Option Response) (r : Response) :
    ∀ (k s : Nat), 0 < s →
    (∀ i, s ≤ i → i < s + k → outcome i = none) →
    outcome (s + k) = some r →
    execAttempts outcome (List.range' s (k + 1)) =
      ⟨some r, k + 1, (List.range' s (k + 1)).map (fun i => i * 2)⟩ := by
  intro k
  induction k with
  | zero =>
    intro s hs _ hsucc
    have hsucc' : outcome s = some r := by simpa using hsucc
    rw [range'_cons, execAttempts_cons_some outcome s _ r hsucc', if_pos hs]
    simp [List.range']
  | succ k ih =>
    intro s hs hfail hsucc
    have h0 : outcome s = none := hfail s (Nat.le_refl s) (by omega)
    have hrec := ih (s + 1) (by omega)
      (fun i h1 h2 => hfail i (by omega) (by omega))
      (by rw [show s + 1 + k = s + (k + 1) by omega]; exact hsucc)
    rw [range'_cons, execAttempts_cons_none outcome s _ h0, hrec, if_pos hs,
      List.map_cons, List.singleton_append]

theorem rulePhase2_extract_irrel (response : Response) (s : String) (rule : Rule) :
    rulePhase2 response s { rule with ExtractCookie := "" } = rulePhase2 response s rule := rfl

/-! ## Claims -/

/-- C1: aggregate-expression evaluation over recorded results `{r0: true, r1: false}`:
`"r0 && r1"` is false, `"r0() || r1()"` is true, and a lone unknown identifier `"r2"`
(no recorded result) is false. -/
theorem C1_aggregate_eval :
    evaluateMainExpression resC1 "r0 && r1" = false ∧
    evaluateMainExpression resC1 "r0() || r1()" = true ∧
    evaluateMainExpression resC1 "r2" = false := ⟨rfl, rfl, rfl⟩

/-- C2 (code behavior at the failing input): a cookie-validation result of `false` is
not a recorded, non-fatal rule failure — `executeRule` turns it into an error, so
`Execute` aborts the whole run, records nothing for the rule, and never reaches the
following rule. -/
theorem C2_false_validation_aborts :
    (Execute rxNone respsAll200 [("r0", ruleCookieCheck), ("r1", emptyRule)] "").verdict =
      .error "执行规则 r0 失败: Cookie 验证不通过" ∧
    (Execute rxNone respsAll200 [("r0", ruleCookieCheck), ("r1", emptyRule)] "").ruleResults =
      [] := ⟨rfl, rfl⟩

/-- C3 (code behavior at the failing input): a false response-validation result is not
reported-and-continued — `executeRule` turns it into an error, so `Execute` aborts the
run, records nothing for the rule, and never executes the remaining rule. -/
theorem C3_false_expression_aborts :
    (Execute rxNone respsAll200 [("r0", ruleExprFalse), ("r1", emptyRule)] "").verdict =
      .error "执行规则 r0 失败: 规则表达式不满足: response.status==500" ∧
    (Execute rxNone respsAll200 [("r0", ruleExprFalse), ("r1", emptyRule)] "").ruleResults =
      [] := ⟨rfl, rfl⟩

/-- C4 counterexample: for a declared retry count of 0 (≤ 0), the executor does not
perform exactly 1 attempt — `GetRetryCount` normalizes to 1 and the loop runs indices
0 and 1, so when the attempts fail it performs 2 attempts (one retry, with one 2s wait). -/
theorem C4_counterexample :
    (executeRequest (fun _ => none) emptyRule.GetRetryCount).attemptsMade = 2 ∧
    ¬ (executeRequest (fun _ => none) emptyRule.GetRetryCount).attemptsMade = 1 :=
  ⟨rfl, fun h => Nat.noConfusion (Nat.succ.inj h)⟩

/-- C4 (amended): a declared retry count ≤ 0 is normalized to a retry count of 1, so the
executor performs 1 attempt when the first succeeds and exactly 2 attempts (one retry)
otherwise — at least one attempt in every case, never zero. -/
theorem C4_retry_normalization (r : Rule) (outcome : Nat → Option Response)
    (h : r.RetryCount ≤ 0) :
    r.GetRetryCount = 1 ∧
    1 ≤ (executeRequest outcome r.GetRetryCount).attemptsMade ∧
    (executeRequest outcome r.GetRetryCount).attemptsMade =
      (if (outcome 0).isSome then 1 else 2) := by
  have h1 : r.GetRetryCount = 1 := by simp [Rule.GetRetryCount, h]
  rw [h1]
  have h2 : executeRequest outcome 1 = execAttempts outcome [0, 1] := rfl
  rw [h2]
  refine ⟨rfl, ?_, ?_⟩ <;>
    cases ho : outcome 0 <;> cases ho1 : outcome 1 <;> simp [execAttempts, ho, ho1]

/-- C4 witness. -/
theorem C4_retry_normalization_witness :
    emptyRule.GetRetryCount = 1 ∧
    1 ≤ (executeRequest (fun _ => none) emptyRule.GetRetryCount).attemptsMade ∧
    (executeRequest (fun _ => none) emptyRule.GetRetryCount).attemptsMade =
      (if ((fun _ => (none : Option Response)) 0).isSome then 1 else 2) :=
  C4_retry_normalization emptyRule (fun _ => none) (by decide)

/-- C5: for every declared timeout, the per-rule options level (`GetTimeout`) already
yields `max t 60`; the per-request transport floor applied on top of it changes nothing
(it is idempotent, so the floor is effectively enforced once, not cumulatively); and
concretely t = 0 and t = 30 yield 60 while t = 90 yields 90. -/
theorem C5_timeout_floor (r : Rule) :
    r.GetTimeout = max r.Timeout 60 ∧
    clientTimeoutFloor r.GetTimeout = max r.Timeout 60 ∧
    clientTimeoutFloor (clientTimeoutFloor r.GetTimeout) = clientTimeoutFloor r.GetTimeout ∧
    (ruleWithTimeout 0).GetTimeout = 60 ∧
    clientTimeoutFloor (ruleWithTimeout 0).GetTimeout = 60 ∧
    clientTimeoutFloor (ruleWithTimeout 30).GetTimeout = 60 ∧
    clientTimeoutFloor (ruleWithTimeout 90).GetTimeout = 90 := by
  refine ⟨?_, ?_, ?_, by decide, by decide, by decide, by decide⟩
  · unfold Rule.GetTimeout
    rw [max_def]
    split_ifs <;> omega
  · unfold Rule.GetTimeout clientTimeoutFloor
    rw [max_def]
    split_ifs <;> omega
  · unfold Rule.GetTimeout clientTimeoutFloor
    split_ifs <;> omega

/-- C6: with retry budget n, if attempts 0..n-1 fail and attempt n yields a readable
response r (whatever its status), the loop returns r, makes n+1 attempts, and performs
exactly n backoff waits of 2, 4, ..., 2n seconds — attempt 0 immediate, attempt i
preceded by a wait of i·2 seconds. -/
theorem C6_retry_backoff (n : Nat) (outcome : Nat → Option Response) (r : Response)
    (hfail : ∀ i, i < n → outcome i = none) (hsucc : outcome n = some r) :
    executeRequest outcome (n : Int) =
      ⟨some r, n + 1, (List.range' 1 n).map (fun i => i * 2)⟩ ∧
    ((List.range' 1 n).map (fun i => i * 2)).length = n := by
  refine ⟨?_, by simp⟩
  have hIt : loopIters (n : Int) = n + 1 := by
    simp only [loopIters]
    omega
  unfold executeRequest
  rw [hIt, List.range_eq_range']
  cases n with
  | zero =>
    rw [range'_cons, execAttempts_cons_some outcome 0 _ r hsucc]
    simp [List.range']
  | succ m =>
    have h0 : outcome 0 = none := hfail 0 (Nat.succ_pos m)
    have hrec := execAttempts_spec outcome r m 1 Nat.one_pos
      (fun i h1 h2 => hfail i (by omega))
      (by rw [show 1 + m = m + 1 by omega]; exact hsucc)
    rw [range'_cons, execAttempts_cons_none outcome 0 _ h0, hrec]
    simp

/-- C6 witness. -/
theorem C6_retry_backoff_witness :
    executeRequest wOutcome ((1 : Nat) : Int) =
      ⟨some resp200, 1 + 1, (List.range' 1 1).map (fun i => i * 2)⟩ ∧
    ((List.range' 1 1).map (fun i => i * 2)).length = 1 :=
  C6_retry_backoff 1 wOutcome resp200
    (fun i hi => by
      have h : i = 0 := by omega
      rw [h]
      rfl)
    rfl

/-- C7 (code behavior at the failing input): the run's outcome depends on the Go map
iteration order, which is unspecified — with the rule that extracts the cookie visited
first the run succeeds, but with the other (legal) iteration order the cookie-consuming
rule runs before the extraction, observes an empty stored cookie, and the run aborts.
Declaration order is therefore not honored. -/
theorem C7_map_order_dependent :
    (Execute rxNone respsC7 [("r0", ruleExtractSC), ("r1", ruleNeedsCookie)] "").verdict =
      .ok true ∧
    (Execute rxNone respsC7 [("r1", ruleNeedsCookie), ("r0", ruleExtractSC)] "").verdict =
      .error "执行规则 r1 失败: 规则表达式不满足: cookie.contains(\"sid\")" := ⟨rfl, rfl⟩

/-- C8: `==`/`!=` compare the textual representations of the operands (so the string
literal "200" equals the integer status 200), while the ordering operators require both
operands to resolve to integers and fail otherwise; concretely `response.status==200` is
true at status 200, `response.status>=200` is true at status 404, and
`response.status<200` is false at status 200. -/
theorem C8_comparisons :
    Evaluate "response.status==200" (some resp200) "" = .ok true ∧
    Evaluate "response.status>=200" (some resp404) "" = .ok true ∧
    Evaluate "response.status<200" (some resp200) "" = .ok false ∧
    Evaluate "response.status==\"200\"" (some resp200) "" = .ok true ∧
    Evaluate "response.status!=200" (some resp404) "" = .ok true ∧
    (∃ msg, Evaluate "response.status>=\"abc\"" (some resp200) "" = .error msg) :=
  ⟨rfl, rfl, rfl, rfl, rfl, ⟨_, rfl⟩⟩

/-- C9: for a rule with a non-empty extraction expression whose extraction fails, the
failure is swallowed: the rule behaves exactly as if it had no extraction expression
(same outcome, so `Execute` does not abort because of it), and the stored cookie is
unchanged. -/
theorem C9_extraction_swallowed (rx : RegexOracle) (response : Response) (stored : String)
    (rule : Rule) (msg : String)
    (hne : rule.ExtractCookie ≠ "")
    (hfail : ExtractCookie rx rule.ExtractCookie (some response) = .error msg) :
    executeRule rx (.ok response) stored rule =
      executeRule rx (.ok response) stored { rule with ExtractCookie := "" } ∧
    (executeRule rx (.ok response) stored rule).2 = stored := by
  have h1 : extractPhase rx response stored rule = stored := by
    unfold extractPhase
    rw [if_pos hne, hfail]
  have h2 : extractPhase rx response stored { rule with ExtractCookie := "" } = stored := by
    unfold extractPhase
    simp
  constructor
  · show (rulePhase2 response (extractPhase rx response stored rule) rule,
        extractPhase rx response stored rule) =
      (rulePhase2 response (extractPhase rx response stored { rule with ExtractCookie := "" })
          { rule with ExtractCookie := "" },
        extractPhase rx response stored { rule with ExtractCookie := "" })
    rw [h1, h2, rulePhase2_extract_irrel]
  · show (rulePhase2 response (extractPhase rx response stored rule) rule,
        extractPhase rx response stored rule).2 = stored
    rw [h1]

/-- C9 witness. -/
theorem C9_extraction_swallowed_witness :
    executeRule rxNone (.ok resp200) "c0" ruleBadExtract =
      executeRule rxNone (.ok resp200) "c0" { ruleBadExtract with ExtractCookie := "" } ∧
    (executeRule rxNone (.ok resp200) "c0" ruleBadExtract).2 = "c0" :=
  C9_extraction_swallowed rxNone resp200 "c0" ruleBadExtract
    "不支持的 Cookie 提取表达式: bogus" (by decide) rfl

/-- C10: in `evaluateMainExpression`, a bare identifier is substituted only when it
matches `r<digits>` — `abc` stays as literal text even though a result for it is
recorded — and a `&&`-conjunction is false only when some trimmed segment is exactly
`"false"`, so the residual segment `abc` counts as true although `abc`'s recorded
result is false. -/
theorem C10_bare_substitution :
    substituteRules resC10 "abc && r0" = "abc && true" ∧
    substituteRules resC10 "r0" = "true" ∧
    evaluateMainExpression resC10 "abc && r0" = true := ⟨rfl, rfl, rfl⟩
